import Mathlib

/-!
Shallow embedding of the y_ex native bridge (the Rust NIF layer under
native/yex/src) and proofs about its specified behavior.

The CRDT engine (yrs) is an external dependency; only the behavior the
bridge relies on is modelled: transaction acquisition (a document admits at
most one live write transaction; acquiring a transaction while a write
transaction is open fails with TransactionAcqError), branch-hook
resolution, and list/map primitives.  Everything the bridge itself does —
error mapping, the transaction-token protocol, handle encoding, sync-frame
dispatch, index normalization — is translated function by function from the
source files (error.rs, doc.rs, transaction.rs, shared_type.rs, sync.rs,
utils.rs, array.rs, map.rs).
-/

namespace Yex

/-! ## Erlang term and error model (error.rs) -/

/-- Model of the Erlang terms the bridge builds when encoding results and
errors.  The source only ever builds atoms, strings, binaries, small
integers and 2/3-tuples, so those are the constructors. -/
inductive ErlTerm where
  | atom (s : String)
  | str (s : String)
  | binary (bytes : List Nat)
  | int (n : Nat)
  | tuple2 (a b : ErlTerm)
  | tuple3 (a b c : ErlTerm)
  deriving DecidableEq, Repr

/-- Model of `rustler::Error` as used by the bridge: `BadArg`, `Atom`,
`Term(boxed encoder)` and `RaiseTerm(boxed encoder)`, with the boxed
payload modelled as the `ErlTerm` it encodes to. -/
inductive RustlerError where
  | BadArg
  | Atom (s : String)
  | Term (t : ErlTerm)
  | RaiseTerm (t : ErlTerm)
  deriving DecidableEq, Repr

/-- The `Error` enum of error.rs.  Payloads of the yrs error variants are
modelled by their diagnostic message (the bridge only ever calls
`to_string()` on them). -/
inductive Error where
  | TransactionError
  | UpdateError (msg : String)
  | EncodingError (msg : String)
  | AwarenessError (msg : String)
  | RustlerError (e : RustlerError)
  | Message (msg : String)
  deriving DecidableEq, Repr

/-- The `Encoder` impl for `Error` (error.rs).  The `RustlerError` arm of
the source aborts (it is written as unreachable for values the bridge
produces); that arm is modelled as `none`, every other arm builds a term. -/
def Error.encode : Error → Option ErlTerm
  | .TransactionError => some (.atom "transaction_acq_error")
  | .EncodingError m =>
      some (.tuple2 (.atom "error") (.tuple2 (.atom "encoding_exception") (.str m)))
  | .UpdateError m => some (.tuple2 (.atom "error") (.str m))
  | .AwarenessError m => some (.tuple2 (.atom "error") (.str m))
  | .Message m => some (.tuple2 (.atom "error") (.str m))
  | .RustlerError _ => none

/-- `From<Error> for rustler::Error` (error.rs): the conversion used by
every `?` propagation out of a NIF. -/
def Error.toRustlerError : Error → Yex.RustlerError
  | .TransactionError => .Atom "transaction_acq_error"
  | .EncodingError m => .Term (.tuple2 (.atom "encoding_exception") (.str m))
  | .UpdateError m => .Term (.str m)
  | .AwarenessError m => .Term (.str m)
  | .Message m => .Term (.str m)
  | .RustlerError e => e

/-- The five native failure kinds named by the spec (transaction conflict,
decoding error, update error, awareness error, message error); everything
except the pass-through `RustlerError` wrapper. -/
def Error.isNativeFailure : Error → Bool
  | .RustlerError _ => false
  | _ => true

/-! ## Document and transaction-token model (doc.rs, transaction.rs)

The observable content of a document is abstracted to the entries of one
root map (scalar payloads abstracted to integers), which is all the claims
about the transaction protocol exercise.  `writeOpen` models the yrs-level
single-writer flag: while a `TransactionMut` is alive on a document,
`try_transact` and `try_transact_mut` both fail with
`TransactionAcqError`, immediately and without blocking. -/

abbrev Store := List (String × Int)

/-- A document: its observable store plus the yrs write-transaction flag. -/
structure Doc where
  store : Store
  writeOpen : Bool
  deriving DecidableEq, Repr

/-- `TransactionResource` (transaction.rs): the lock-protected optional
`TransactionMut<'static>` slot held by an explicit transaction token.
`slot = some ()` means the token holds the document's live write
transaction; `poisoned` models the slot lock having been poisoned by a
panic while a write guard was held. -/
structure TransactionResource where
  slot : Option Unit
  poisoned : Bool
  deriving DecidableEq, Repr

/-- yrs `try_transact_mut`: fails iff a write transaction is already open. -/
def try_transact_mut (d : Doc) : Except Error Unit :=
  if d.writeOpen then .error .TransactionError else .ok ()

/-- The `doc_begin_transaction` NIF (doc.rs).  Both origin branches run the
same acquisition (`try_transact_mut_with` / `try_transact_mut`); on success
the obtained `TransactionMut` is stored into a fresh token slot, leaving
the document's write flag held. -/
def doc_begin_transaction (d : Doc) (origin : Option (List Nat)) :
    Except RustlerError (Doc × TransactionResource) :=
  match origin with
  | some _ =>
      if d.writeOpen then .error (Error.toRustlerError .TransactionError)
      else .ok ({ d with writeOpen := true }, { slot := some (), poisoned := false })
  | none =>
      if d.writeOpen then .error (Error.toRustlerError .TransactionError)
      else .ok ({ d with writeOpen := true }, { slot := some (), poisoned := false })

/-- The `commit_transaction` NIF (doc.rs): take the slot's write lock; if
that succeeds, overwrite the slot with `None`.  Dropping a held
`TransactionMut` commits it and releases the document's write flag; if the
lock is poisoned the `if let Ok` guard skips and nothing changes. -/
def commit_transaction (d : Doc) (t : TransactionResource) :
    Doc × TransactionResource :=
  if t.poisoned then (d, t)
  else
    match t.slot with
    | some _ => ({ d with writeOpen := false }, { slot := none, poisoned := t.poisoned })
    | none => (d, { slot := none, poisoned := t.poisoned })

/-- `DocOperations::with_transaction_mut` (doc.rs): open an ephemeral write
transaction via `try_transact_mut`, run the closure, drop (commit) it. -/
def with_transaction_mut {α : Type} (d : Doc)
    (f : Store → Except RustlerError (Store × α)) :
    Except RustlerError (Doc × α) :=
  if d.writeOpen then .error (Error.toRustlerError .TransactionError)
  else
    match f d.store with
    | .ok (s, a) => .ok ({ d with store := s }, a)
    | .error e => .error e

/-- `ReadTransaction` (transaction.rs): a read view that is either an
independent read-only transaction or a borrow of a live write
transaction. -/
inductive ReadTransaction where
  | ReadOnly (store : Store)
  | ReadWrite (store : Store)
  deriving DecidableEq, Repr

/-- The store visible through a read view (the `ReadTxn::store` impl). -/
def ReadTransaction.store : ReadTransaction → Store
  | .ReadOnly s => s
  | .ReadWrite s => s

/-- `DocOperations::with_transaction` (doc.rs): open an ephemeral read-only
transaction via `try_transact` (which, like the mutable acquisition, fails
while a write transaction is open) and run the closure on it. -/
def with_transaction {α : Type} (d : Doc)
    (f : ReadTransaction → Except RustlerError α) : Except RustlerError α :=
  if d.writeOpen then .error (Error.toRustlerError .TransactionError)
  else f (.ReadOnly d.store)

/-- `NifDoc::mutably` (doc.rs): with a token whose write lock is healthy
and whose slot holds a live transaction, run the closure on that
transaction; otherwise (no token, empty slot, or poisoned lock) fall back
to an ephemeral write transaction. -/
def mutably {α : Type} (d : Doc) (tok : Option TransactionResource)
    (f : Store → Except RustlerError (Store × α)) :
    Except RustlerError (Doc × α) :=
  match tok with
  | some t =>
      if t.poisoned then with_transaction_mut d f
      else
        match t.slot with
        | some _ =>
            match f d.store with
            | .ok (s, a) => .ok ({ d with store := s }, a)
            | .error e => .error e
        | none => with_transaction_mut d f
  | none => with_transaction_mut d f

/-- `NifDoc::readonly` (doc.rs): with a token holding a live write
transaction, run the closure on a `ReadWrite` view of it
(read-through-write); otherwise fall back to an independent ephemeral
read-only transaction. -/
def readonly {α : Type} (d : Doc) (tok : Option TransactionResource)
    (f : ReadTransaction → Except RustlerError α) : Except RustlerError α :=
  match tok with
  | some t =>
      if t.poisoned then with_transaction d f
      else
        match t.slot with
        | some _ => f (.ReadWrite d.store)
        | none => with_transaction d f
  | none => with_transaction d f

/-! ## Root-map operations (map.rs)

`map_set` and `map_get` on a root map.  A root type of a yrs document is
permanent, so the `get_ref` handle resolution in these NIFs always
succeeds for a root map; handle deletion is modelled separately below. -/

/-- yrs `MapRef::insert`: replace any entry with the same key. -/
def mapInsert (s : Store) (k : String) (v : Int) : Store :=
  (k, v) :: s.filter (fun p => p.1 != k)

/-- yrs `MapRef::get`. -/
def mapLookup (s : Store) (k : String) : Option Int :=
  (s.find? (fun p => p.1 == k)).map (fun p => p.2)

/-- The `map_set` NIF (map.rs) on a root map. -/
def map_set (d : Doc) (tok : Option TransactionResource) (key : String)
    (value : Int) : Except RustlerError (Doc × ErlTerm) :=
  mutably d tok (fun s => .ok (mapInsert s key value, .atom "ok"))

/-- The `map_get` NIF (map.rs) on a root map: `{:ok, value}` when the key
is present, the bare atom error `"error"` otherwise. -/
def map_get (d : Doc) (tok : Option TransactionResource) (key : String) :
    Except RustlerError (ErlTerm × Int) :=
  readonly d tok (fun txn =>
    match mapLookup txn.store key with
    | some v => .ok (.atom "ok", v)
    | none => .error (.Atom "error"))

/-! ## Shared-type handles (shared_type.rs)

A `SharedTypeId<T>` wraps a `yrs::Hook`, whose structural content is the
branch id: the name of a root type or the (client, clock) id of a nested
item — never a memory address.  The flexbuffers serialization of that
structure in the `Encoder`/`Decoder` impls is modelled as an executable,
self-contained byte encoding of the same structural data. -/

/-- The structural identity inside a `yrs::Hook`: a root-type name or a
nested item id. -/
inductive BranchId where
  | root (name : String)
  | nested (client : Nat) (clock : Nat)
  deriving DecidableEq, Repr

/-- Little-endian base-256 digits of a natural number. -/
def natToBytes : Nat → List Nat
  | 0 => []
  | n + 1 => (n + 1) % 256 :: natToBytes ((n + 1) / 256)
decreasing_by exact Nat.div_lt_self (Nat.succ_pos n) (by omega)

/-- Read back little-endian base-256 digits. -/
def bytesToNat : List Nat → Nat
  | [] => 0
  | b :: rest => b + 256 * bytesToNat rest

/-- Length-prefixed number encoding. -/
def encNat (n : Nat) : List Nat :=
  (natToBytes n).length :: natToBytes n

/-- Decode a length-prefixed number, returning it and the remaining bytes. -/
def decNat : List Nat → Option (Nat × List Nat)
  | [] => none
  | len :: rest =>
      if len ≤ rest.length then some (bytesToNat (rest.take len), rest.drop len)
      else none

/-- Char-by-char encoding of a string's code points. -/
def encChars : List Char → List Nat
  | [] => []
  | c :: cs => encNat c.toNat ++ encChars cs

/-- Length-prefixed string encoding. -/
def encString (s : String) : List Nat :=
  encNat s.data.length ++ encChars s.data

/-- Decode `n` code points. -/
def decChars : Nat → List Nat → Option (List Char × List Nat)
  | 0, l => some ([], l)
  | n + 1, l =>
      match decNat l with
      | some (code, r) =>
          match decChars n r with
          | some (cs, r2) => some (Char.ofNat code :: cs, r2)
          | none => none
      | none => none

/-- Decode a length-prefixed string. -/
def decString (l : List Nat) : Option (String × List Nat) :=
  match decNat l with
  | some (n, r) =>
      match decChars n r with
      | some (cs, r2) => some (⟨cs⟩, r2)
      | none => none
  | none => none

/-- The `Encoder` impl for `SharedTypeId` (shared_type.rs): serialize the
hook's structural branch id to a self-contained byte sequence. -/
def SharedTypeId.encode : BranchId → List Nat
  | .root name => 0 :: encString name
  | .nested client clock => 1 :: (encNat client ++ encNat clock)

/-- The `Decoder` impl for `SharedTypeId` (shared_type.rs): deserialize a
branch id back from its bytes; malformed input is rejected (`BadArg` in the
source, `none` here). -/
def SharedTypeId.decode (l : List Nat) : Option BranchId :=
  match l with
  | 0 :: rest => (decString rest).map (fun p => .root p.1)
  | 1 :: rest =>
      match decNat rest with
      | some (client, r) =>
          match decNat r with
          | some (clock, _) => some (.nested client clock)
          | none => none
      | none => none
  | _ => none

/-- `yrs::Hook::get`: re-resolve the structural id against the document
tree visible in a transaction; `none` when the branch no longer exists.
The set of live branches is modelled extensionally. -/
def hookGet (h : BranchId) (live : List BranchId) : Option BranchId :=
  if h ∈ live then some h else none

/-- `deleted_error` (shared_type.rs): raise a `Yex.DeletedSharedTypeError`
exception carrying a message. -/
def deleted_error (message : String) : RustlerError :=
  .RaiseTerm (.tuple2 (.atom "Elixir.Yex.DeletedSharedTypeError") (.str message))

/-- `NifSharedType::get_ref` (shared_type.rs): resolve the handle inside a
transaction, or fail with the type's deleted-error message.  Every
shared-type NIF resolves its handle through this function. -/
def get_ref (deletedMsg : String) (h : BranchId) (live : List BranchId) :
    Except RustlerError BranchId :=
  match hookGet h live with
  | some r => .ok r
  | none => .error (deleted_error deletedMsg)

/-! ## Sync-protocol frame decoding (sync.rs)

`sync_message_decode_v1`/`v2` both feed the incoming bytes through
`decode_message`; the v1 lib0 primitives `read_var` (7-bit groups with a
continuation bit), `read_buf` (length-prefixed bytes) and `read_string`
are modelled over byte lists, a failed read being `none` (the source's
`yrs::encoding::read::Error`, mapped to a decoding error). -/

def MSG_SYNC : Nat := 0
def MSG_AWARENESS : Nat := 1
def MSG_AUTH : Nat := 2
def MSG_QUERY_AWARENESS : Nat := 3
def MSG_SYNC_STEP_1 : Nat := 0
def MSG_SYNC_STEP_2 : Nat := 1
def MSG_SYNC_UPDATE : Nat := 2
def PERMISSION_DENIED : Nat := 0

/-- lib0 variable-length unsigned integer. -/
def readVar : List Nat → Option (Nat × List Nat)
  | [] => none
  | b :: rest =>
      if b < 128 then some (b, rest)
      else
        match readVar rest with
        | some (v, r) => some (b % 128 + 128 * v, r)
        | none => none

/-- lib0 length-prefixed byte buffer. -/
def readBuf (l : List Nat) : Option (List Nat × List Nat) :=
  match readVar l with
  | some (len, rest) =>
      if len ≤ rest.length then some (rest.take len, rest.drop len) else none
  | none => none

/-- lib0 length-prefixed string (UTF-8 modelled at byte granularity). -/
def readString (l : List Nat) : Option (String × List Nat) :=
  (readBuf l).map (fun p => (⟨p.1.map Char.ofNat⟩, p.2))

/-- `decode_sync_message` (sync.rs): dispatch on the secondary tag inside a
sync frame; the three known tags carry a buffer, any other tag is rejected
with a message error. -/
def decode_sync_message (l : List Nat) : Except Error (ErlTerm × List Nat) :=
  match readVar l with
  | none => .error (.EncodingError "end of buffer")
  | some (tag, rest) =>
      if tag = MSG_SYNC_STEP_1 then
        match readBuf rest with
        | some (buf, r) => .ok (.tuple2 (.atom "sync_step1") (.binary buf), r)
        | none => .error (.EncodingError "end of buffer")
      else if tag = MSG_SYNC_STEP_2 then
        match readBuf rest with
        | some (buf, r) => .ok (.tuple2 (.atom "sync_step2") (.binary buf), r)
        | none => .error (.EncodingError "end of buffer")
      else if tag = MSG_SYNC_UPDATE then
        match readBuf rest with
        | some (buf, r) => .ok (.tuple2 (.atom "sync_update") (.binary buf), r)
        | none => .error (.EncodingError "end of buffer")
      else .error (.Message ("Unexpected tag value: " ++ toString tag))

/-- `decode_message` (sync.rs): dispatch on the top-level tag of a wire
frame; the final arm accepts any unrecognized tag as a `custom` frame
carrying the tag and its buffer. -/
def decode_message (l : List Nat) : Except Error (ErlTerm × List Nat) :=
  match readVar l with
  | none => .error (.EncodingError "end of buffer")
  | some (tag, rest) =>
      if tag = MSG_SYNC then
        match decode_sync_message rest with
        | .ok (m, r) => .ok (.tuple2 (.atom "sync") m, r)
        | .error e => .error e
      else if tag = MSG_AWARENESS then
        match readBuf rest with
        | some (buf, r) => .ok (.tuple2 (.atom "awareness") (.binary buf), r)
        | none => .error (.EncodingError "end of buffer")
      else if tag = MSG_AUTH then
        match readVar rest with
        | some (perm, r) =>
            if perm = PERMISSION_DENIED then
              match readString r with
              | some (reason, r2) => .ok (.tuple2 (.atom "auth") (.str reason), r2)
              | none => .error (.EncodingError "end of buffer")
            else .ok (.tuple2 (.atom "auth") (.atom "nil"), r)
        | none => .error (.EncodingError "end of buffer")
      else if tag = MSG_QUERY_AWARENESS then .ok (.atom "query_awareness", rest)
      else
        match readBuf rest with
        | some (buf, r) => .ok (.tuple3 (.atom "custom") (.int tag) (.binary buf), r)
        | none => .error (.EncodingError "end of buffer")

/-- The `sync_message_decode_v1` NIF: run `decode_message` over the binary
and return the decoded term. -/
def sync_message_decode_v1 (msg : List Nat) : Except Error ErlTerm :=
  (decode_message msg).map (fun p => p.1)

/-! ## Index normalization and array operations (utils.rs, array.rs) -/

def u32Max : Nat := 4294967295

/-- `normalize_index_for_insert` (utils.rs): negative indices count from
the end (with `+ 1` so that `-1` inserts at the end); the result is
clamped into `[0, len]`.  (`clamp(lo, hi)` is `min (max v lo) hi`; the
final `try_into` cannot fail on a clamped value.) -/
def normalize_index_for_insert (len : Nat) (index : Int) : Nat :=
  if index < 0 then (min (max ((len : Int) + index + 1) 0) (len : Int)).toNat
  else (min (max index 0) (len : Int)).toNat

/-- `normalize_index` (utils.rs): negative indices count from the end;
a resolved position outside `u32` falls back to `u32::MAX` (the
`unwrap_or(u32::MAX)`), which is out of range for any real array. -/
def normalize_index (len : Nat) (index : Int) : Nat :=
  if index < 0 then
    if (len : Int) + index < 0 then u32Max else ((len : Int) + index).toNat
  else if index ≤ (u32Max : Int) then index.toNat else u32Max

/-- `capped_index_and_length` (utils.rs). -/
def capped_index_and_length (target_len : Nat) (index_i64 : Int)
    (length : Nat) : Option (Nat × Nat) :=
  let index := normalize_index target_len index_i64
  let remaining := target_len - index
  let actual_length := min length remaining
  if actual_length = 0 then none else some (index, actual_length)

/-- yrs `ArrayRef::insert`: inserting past the end aborts inside yrs; that
abort is modelled as `none`, success as the updated list. -/
def yrsArrayInsert (arr : List Int) (index : Nat) (v : Int) :
    Option (List Int) :=
  if index ≤ arr.length then some (arr.take index ++ v :: arr.drop index)
  else none

/-- yrs `ArrayRef::remove_range`: a range past the end aborts inside yrs;
modelled as `none`. -/
def yrsArrayRemoveRange (arr : List Int) (index len : Nat) :
    Option (List Int) :=
  if index + len ≤ arr.length then
    some (arr.take index ++ arr.drop (index + len))
  else none

/-- yrs `ArrayRef::get`. -/
def yrsArrayGet (arr : List Int) (index : Nat) : Option Int :=
  arr.get? index

/-- The index handling of the `array_insert` NIF (array.rs): normalize the
signed index against the current length, then insert. -/
def array_insert (arr : List Int) (index : Int) (v : Int) :
    Option (List Int) :=
  yrsArrayInsert arr (normalize_index_for_insert arr.length index) v

/-- The `array_get` NIF (array.rs): ok with the value, or the bare atom
error when the resolved index is out of range. -/
def array_get (arr : List Int) (index : Int) : Except RustlerError Int :=
  match yrsArrayGet arr (normalize_index arr.length index) with
  | some v => .ok v
  | none => .error (.Atom "error")

/-- The `array_delete_range` NIF (array.rs): cap the pair to the array's
bounds, delete only when the capped range is nonempty, and return ok. -/
def array_delete_range (arr : List Int) (index : Int) (length : Nat) :
    Option (List Int) :=
  match capped_index_and_length arr.length index length with
  | some (i, l) => yrsArrayRemoveRange arr i l
  | none => some arr

/-! ## Supporting lemmas -/

theorem bytesToNat_natToBytes (n : Nat) : bytesToNat (natToBytes n) = n := by
  induction n using Nat.strong_induction_on with
  | _ n ih =>
    match n with
    | 0 => simp [natToBytes, bytesToNat]
    | m + 1 =>
      rw [natToBytes, bytesToNat,
        ih ((m + 1) / 256) (Nat.div_lt_self (Nat.succ_pos m) (by omega))]
      omega

theorem decNat_encNat (n : Nat) (rest : List Nat) :
    decNat (encNat n ++ rest) = some (n, rest) := by
  simp [encNat, decNat, bytesToNat_natToBytes]

theorem decChars_encChars (cs : List Char) (rest : List Nat) :
    decChars cs.length (encChars cs ++ rest) = some (cs, rest) := by
  induction cs with
  | nil => simp [encChars, decChars]
  | cons c cs ih =>
      simp [encChars, decChars, List.append_assoc, decNat_encNat, ih,
        Char.ofNat_toNat]

theorem decString_encString (s : String) (rest : List Nat) :
    decString (encString s ++ rest) = some (s, rest) := by
  have h1 : decNat (encNat s.data.length ++ (encChars s.data ++ rest))
      = some (s.data.length, encChars s.data ++ rest) := decNat_encNat _ _
  have h2 := decChars_encChars s.data rest
  simp only [encString, decString, List.append_assoc, h1, h2]

/-- Decoding inverts encoding of a shared-type handle. -/
theorem SharedTypeId.decode_encode (h : BranchId) :
    SharedTypeId.decode (SharedTypeId.encode h) = some h := by
  cases h with
  | root name =>
      have h1 : decString (encString name) = some (name, []) := by
        have := decString_encString name []
        simpa using this
      simp [SharedTypeId.encode, SharedTypeId.decode, h1]
  | nested client clock =>
      have h1 : decNat (encNat client ++ encNat clock) = some (client, encNat clock) :=
        decNat_encNat client (encNat clock)
      have h2 : decNat (encNat clock) = some (clock, []) := by
        have := decNat_encNat clock []
        simpa using this
      simp [SharedTypeId.encode, SharedTypeId.decode, h1, h2]

/-! ## Claim theorems -/

/-- Claim C1: an explicit `doc_begin_transaction` issued while another
write transaction is already open on the same document fails immediately
(the acquisition is a total function, never blocking) with the
`transaction_acq_error` TransactionConflict error, for any origin; in
particular a begin that succeeded leaves the document in a state where a
second begin fails that way. -/
theorem begin_while_open_conflicts (d : Doc) (origin origin2 : Option (List Nat)) :
    (d.writeOpen = true →
      doc_begin_transaction d origin = .error (.Atom "transaction_acq_error"))
    ∧ (∀ d2 t, doc_begin_transaction d origin = .ok (d2, t) →
        doc_begin_transaction d2 origin2 = .error (.Atom "transaction_acq_error")) := by
  constructor
  · intro hopen
    cases origin <;> simp [doc_begin_transaction, hopen, Error.toRustlerError]
  · intro d2 t hok
    cases hw : d.writeOpen
    · have hd2 : d2 = { d with writeOpen := true } := by
        cases origin <;> simp [doc_begin_transaction, hw] at hok <;> exact hok.1.symm
      cases origin2 <;>
        simp [doc_begin_transaction, hd2, Error.toRustlerError]
    · cases origin <;> simp [doc_begin_transaction, hw] at hok

/-- Witness for C1 at concrete inputs: a document with an open write
transaction rejects a begin with either origin shape. -/
theorem begin_while_open_conflicts_witness :
    doc_begin_transaction (Doc.mk [] true) none
      = .error (.Atom "transaction_acq_error")
    ∧ doc_begin_transaction (Doc.mk [] true) (some [1])
      = .error (.Atom "transaction_acq_error") :=
  ⟨(begin_while_open_conflicts (Doc.mk [] true) none none).1 rfl,
   (begin_while_open_conflicts (Doc.mk [] false) (some [1]) (some [1])).2
     (Doc.mk [] true) (TransactionResource.mk (some ()) false) rfl⟩

/-- Claim C2: `commit_transaction` is idempotent — committing twice equals
committing once, and committing a token whose slot holds no live
transaction leaves both the token and the document unchanged. -/
theorem commit_transaction_idempotent (d : Doc) (t : TransactionResource) (p : Bool) :
    commit_transaction (commit_transaction d t).1 (commit_transaction d t).2
      = commit_transaction d t
    ∧ commit_transaction d (TransactionResource.mk none p)
      = (d, TransactionResource.mk none p) := by
  constructor
  · cases hp : t.poisoned <;> cases hs : t.slot <;>
      simp [commit_transaction, hp, hs]
  · cases p <;> simp [commit_transaction]

/-- Claim C3: a token whose transaction has been committed (empty slot) is
inert — every bridge operation run with it behaves exactly as with no
token at all, falling back to a fresh ephemeral transaction; when the
document is free, the operation completes with the closure's result. -/
theorem inert_token_falls_back_to_ephemeral {α : Type}
    (d : Doc) (t : TransactionResource)
    (f : Store → Except RustlerError (Store × α))
    (g : ReadTransaction → Except RustlerError α)
    (hinert : t.slot = none) :
    mutably d (some t) f = mutably d none f
    ∧ readonly d (some t) g = readonly d none g
    ∧ (d.writeOpen = false → ∀ s a, f d.store = .ok (s, a) →
        mutably d (some t) f = .ok ({ d with store := s }, a)) := by
  refine ⟨?_, ?_, ?_⟩
  · cases hp : t.poisoned <;> simp [mutably, hinert, hp]
  · cases hp : t.poisoned <;> simp [readonly, hinert, hp]
  · intro hw s a hf
    cases hp : t.poisoned <;>
      simp [mutably, with_transaction_mut, hinert, hp, hw, hf]

/-- Witness for C3 at concrete inputs, with every hypothesis discharged. -/
theorem inert_token_falls_back_witness :
    mutably (Doc.mk [] false) (some (TransactionResource.mk none false))
        (fun s => (.ok (s, (0 : Int)) : Except RustlerError (Store × Int)))
      = mutably (Doc.mk [] false) none (fun s => .ok (s, (0 : Int)))
    ∧ readonly (Doc.mk [] false) (some (TransactionResource.mk none false))
        (fun _ => (.ok (0 : Int) : Except RustlerError Int))
      = readonly (Doc.mk [] false) none (fun _ => .ok (0 : Int))
    ∧ mutably (Doc.mk [] false) (some (TransactionResource.mk none false))
        (fun s => (.ok (s, (0 : Int)) : Except RustlerError (Store × Int)))
      = .ok ({ Doc.mk [] false with store := [] }, 0) :=
  ⟨(inert_token_falls_back_to_ephemeral (Doc.mk [] false)
      (TransactionResource.mk none false)
      (fun s => .ok (s, (0 : Int))) (fun _ => .ok (0 : Int)) rfl).1,
   (inert_token_falls_back_to_ephemeral (Doc.mk [] false)
      (TransactionResource.mk none false)
      (fun s => .ok (s, (0 : Int))) (fun _ => .ok (0 : Int)) rfl).2.1,
   (inert_token_falls_back_to_ephemeral (Doc.mk [] false)
      (TransactionResource.mk none false)
      (fun s => .ok (s, (0 : Int))) (fun _ => .ok (0 : Int)) rfl).2.2
     rfl [] 0 rfl⟩

/-- Claim C4: a read-only operation invoked with a token holding a live
write transaction reads through that write transaction, so a map set of
key `k` to `v` made through the token is observed by a read through the
same token before commit; a read without a live token runs in an
independent ephemeral read-only transaction. -/
theorem read_through_write_observes_pending_writes
    (d : Doc) (t : TransactionResource) (k : String) (v : Int)
    (hlive : t.slot = some ()) (hp : t.poisoned = false) :
    (∃ d2, map_set d (some t) k v = .ok (d2, .atom "ok")
      ∧ map_get d2 (some t) k = .ok (.atom "ok", v))
    ∧ (∀ (α : Type) (g : ReadTransaction → Except RustlerError α),
        readonly d none g = with_transaction d g
        ∧ ∀ p, readonly d (some (TransactionResource.mk none p)) g
            = with_transaction d g) := by
  constructor
  · refine ⟨{ d with store := mapInsert d.store k v }, ?_, ?_⟩
    · simp [map_set, mutably, hlive, hp]
    · simp [map_get, readonly, hlive, hp, ReadTransaction.store, mapLookup,
        mapInsert, List.find?]
  · intro α g
    refine ⟨rfl, ?_⟩
    intro p
    cases p <;> simp [readonly]

/-- Witness for C4 at concrete inputs: the scenario of the spec — inside
token T, set "x" to 1, then read "x" through T and observe 1. -/
theorem read_through_write_witness :
    (∃ d2, map_set (Doc.mk [] true) (some (TransactionResource.mk (some ()) false)) "x" 1
        = .ok (d2, .atom "ok")
      ∧ map_get d2 (some (TransactionResource.mk (some ()) false)) "x"
        = .ok (.atom "ok", 1))
    ∧ (∀ (α : Type) (g : ReadTransaction → Except RustlerError α),
        readonly (Doc.mk [] true) none g = with_transaction (Doc.mk [] true) g
        ∧ ∀ p, readonly (Doc.mk [] true) (some (TransactionResource.mk none p)) g
            = with_transaction (Doc.mk [] true) g) :=
  read_through_write_observes_pending_writes (Doc.mk [] true)
    (TransactionResource.mk (some ()) false) "x" 1 rfl rfl

/-- Claim C5: resolving a handle whose branch has been deleted yields the
distinguishable `Yex.DeletedSharedTypeError` (a defined error value of the
total resolution function, never undefined behavior), the same holds for
the handle after a round trip through its binary encoding, and the handle
value itself stays valid: it resolves again once its branch is live. -/
theorem deleted_handle_resolves_to_deleted_error
    (msg : String) (h : BranchId) (live : List BranchId) (hdel : h ∉ live) :
    get_ref msg h live = .error (deleted_error msg)
    ∧ (∀ h2, SharedTypeId.decode (SharedTypeId.encode h) = some h2 →
        get_ref msg h2 live = .error (deleted_error msg))
    ∧ get_ref msg h (h :: live) = .ok h := by
  refine ⟨?_, ?_, ?_⟩
  · simp [get_ref, hookGet, hdel]
  · intro h2 hdec
    have hh : h2 = h := by
      have := SharedTypeId.decode_encode h
      rw [this] at hdec
      exact (Option.some_inj.mp hdec).symm
    subst hh
    simp [get_ref, hookGet, hdel]
  · simp [get_ref, hookGet]

/-- Witness for C5 at concrete inputs, with every hypothesis discharged
(the round-trip hypothesis is discharged by evaluating the encoding of the
root handle "m"). -/
theorem deleted_handle_witness :
    get_ref "Map has been deleted" (.root "m") []
      = .error (deleted_error "Map has been deleted")
    ∧ get_ref "Map has been deleted" (BranchId.root "m") []
      = .error (deleted_error "Map has been deleted")
    ∧ get_ref "Map has been deleted" (.root "m") [.root "m"] = .ok (.root "m") :=
  ⟨(deleted_handle_resolves_to_deleted_error "Map has been deleted"
      (.root "m") [] (by simp)).1,
   (deleted_handle_resolves_to_deleted_error "Map has been deleted"
      (.root "m") [] (by simp)).2.1 (BranchId.root "m")
     (SharedTypeId.decode_encode (BranchId.root "m")),
   (deleted_handle_resolves_to_deleted_error "Map has been deleted"
      (.root "m") [] (by simp)).2.2⟩

/-- Claim C6: decoding the binary form produced by encoding a shared-type
handle yields the original handle; the encoding is a function of the
structural branch id alone (a root name or a nested item id), so the round
trip holds across a process or storage boundary. -/
theorem shared_type_id_roundtrip (h : BranchId) :
    SharedTypeId.decode (SharedTypeId.encode h) = some h :=
  SharedTypeId.decode_encode h

/-- Claim C7 counterexample: the claim inverts the dispatcher.  A frame
with unknown top-level tag 5 is not rejected — it decodes as a `custom`
result — while a sync frame whose secondary tag 5 is unknown is rejected
with an error rather than passed through as `custom`. -/
theorem sync_tag_dispatch_counterexample :
    decode_message [5, 0]
      = .ok (.tuple3 (.atom "custom") (.int 5) (.binary []), [])
    ∧ decode_message [0, 5, 0] = .error (.Message "Unexpected tag value: 5") := by
  constructor <;> rfl

/-- Claim C7 (amended): when decoding a sync wire frame, a frame whose
top-level tag byte is unknown passes through as a `custom` result carrying
the tag and the remaining bytes, while a frame whose secondary tag (the
tag inside a sync message) is unknown is rejected with an error. -/
theorem sync_tag_dispatch (tag : Nat) (buf : List Nat) (stag : Nat)
    (rest : List Nat) (htag : 3 < tag) (htag2 : tag < 128)
    (hbuf : buf.length < 128) (hstag : 2 < stag) (hstag2 : stag < 128) :
    decode_message (tag :: buf.length :: buf)
      = .ok (.tuple3 (.atom "custom") (.int tag) (.binary buf), [])
    ∧ decode_message (0 :: stag :: rest)
      = .error (.Message ("Unexpected tag value: " ++ toString stag)) := by
  have h0 : ¬ tag = 0 := by omega
  have h1 : ¬ tag = 1 := by omega
  have h2 : ¬ tag = 2 := by omega
  have h3 : ¬ tag = 3 := by omega
  have s0 : ¬ stag = 0 := by omega
  have s1 : ¬ stag = 1 := by omega
  have s2 : ¬ stag = 2 := by omega
  constructor
  · have hv : readVar (tag :: buf.length :: buf) = some (tag, buf.length :: buf) := by
      simp [readVar, htag2]
    have hb : readBuf (buf.length :: buf) = some (buf, []) := by
      simp [readBuf, readVar, hbuf]
    simp [decode_message, hv, hb, MSG_SYNC, MSG_AWARENESS, MSG_AUTH,
      MSG_QUERY_AWARENESS, h0, h1, h2, h3]
  · have hv : readVar (0 :: stag :: rest) = some (0, stag :: rest) := by
      simp [readVar]
    have hs : readVar (stag :: rest) = some (stag, rest) := by
      simp [readVar, hstag2]
    simp [decode_message, decode_sync_message, hv, hs, MSG_SYNC,
      MSG_SYNC_STEP_1, MSG_SYNC_STEP_2, MSG_SYNC_UPDATE, s0, s1, s2]

/-- Witness for the amended C7 at concrete inputs. -/
theorem sync_tag_dispatch_witness :
    decode_message [9, 1, 7]
      = .ok (.tuple3 (.atom "custom") (.int 9) (.binary [7]), [])
    ∧ decode_message [0, 9, 7]
      = .error (.Message ("Unexpected tag value: " ++ toString 9)) :=
  sync_tag_dispatch 9 [7] 9 [7] (by decide) (by decide) (by decide)
    (by decide) (by decide)

/-- Claim C8: every native failure kind surfaced by the bridge
(transaction conflict, decoding, update, awareness, message) is returned
as a structured value — its `Encoder` impl produces a term (the
`RustlerError` pass-through arm, the only aborting arm, is excluded by the
hypothesis) and its conversion to a NIF error is either the conflict atom
or a structured term carrying the diagnostic. -/
theorem native_errors_propagate_structured (e : Error)
    (h : e.isNativeFailure = true) :
    (∃ t, Error.encode e = some t)
    ∧ (Error.toRustlerError e = .Atom "transaction_acq_error"
       ∨ ∃ t, Error.toRustlerError e = .Term t) := by
  cases e with
  | TransactionError =>
      exact ⟨⟨.atom "transaction_acq_error", rfl⟩, .inl rfl⟩
  | UpdateError m =>
      exact ⟨⟨_, rfl⟩, .inr ⟨.str m, rfl⟩⟩
  | EncodingError m =>
      exact ⟨⟨_, rfl⟩, .inr ⟨_, rfl⟩⟩
  | AwarenessError m =>
      exact ⟨⟨_, rfl⟩, .inr ⟨.str m, rfl⟩⟩
  | Message m =>
      exact ⟨⟨_, rfl⟩, .inr ⟨.str m, rfl⟩⟩
  | RustlerError e =>
      simp [Error.isNativeFailure] at h

/-- Witness for C8 at a concrete input. -/
theorem native_errors_propagate_witness :
    (∃ t, Error.encode .TransactionError = some t)
    ∧ (Error.toRustlerError .TransactionError = .Atom "transaction_acq_error"
       ∨ ∃ t, Error.toRustlerError .TransactionError = .Term t) :=
  native_errors_propagate_structured .TransactionError rfl

/-- Claim C9 counterexample: a token whose slot lock was poisoned while
still holding the live write transaction does not let the operation
complete — the ephemeral fallback cannot acquire a write transaction on
the still-locked document, so the operation fails with the transaction
conflict error. -/
theorem poisoned_lock_counterexample :
    mutably (Doc.mk [] true) (some (TransactionResource.mk (some ()) true))
        (fun s => (.ok (s, (0 : Int)) : Except RustlerError (Store × Int)))
      = .error (.Atom "transaction_acq_error") := by
  rfl

/-- Claim C9 (amended): a bridge operation invoked with a token whose slot
lock is poisoned never returns a poisoning error: the poisoned token is
bypassed and the operation falls back to a fresh ephemeral transaction,
which completes whenever the document holds no live write transaction; if
the poisoned slot still pins a live write transaction, the fallback fails
with the transaction conflict error until the token is released. -/
theorem poisoned_lock_falls_back {α : Type} (d : Doc)
    (t : TransactionResource) (f : Store → Except RustlerError (Store × α))
    (g : ReadTransaction → Except RustlerError α)
    (hp : t.poisoned = true) :
    mutably d (some t) f = with_transaction_mut d f
    ∧ readonly d (some t) g = with_transaction d g
    ∧ (d.writeOpen = false → ∀ s a, f d.store = .ok (s, a) →
        mutably d (some t) f = .ok ({ d with store := s }, a))
    ∧ (d.writeOpen = true →
        mutably d (some t) f = .error (.Atom "transaction_acq_error")) := by
  refine ⟨?_, ?_, ?_, ?_⟩
  · simp [mutably, hp]
  · simp [readonly, hp]
  · intro hw s a hf
    simp [mutably, with_transaction_mut, hp, hw, hf]
  · intro hw
    simp [mutably, with_transaction_mut, hp, hw, Error.toRustlerError]

/-- Witness for the amended C9 at concrete inputs, with every hypothesis
discharged (a free document for the completing case, a locked one for the
conflict case). -/
theorem poisoned_lock_falls_back_witness :
    mutably (Doc.mk [] false) (some (TransactionResource.mk none true))
        (fun s => (.ok (s, (0 : Int)) : Except RustlerError (Store × Int)))
      = with_transaction_mut (Doc.mk [] false) (fun s => .ok (s, (0 : Int)))
    ∧ readonly (Doc.mk [] false) (some (TransactionResource.mk none true))
        (fun _ => (.ok (0 : Int) : Except RustlerError Int))
      = with_transaction (Doc.mk [] false) (fun _ => .ok (0 : Int))
    ∧ mutably (Doc.mk [] false) (some (TransactionResource.mk none true))
        (fun s => (.ok (s, (0 : Int)) : Except RustlerError (Store × Int)))
      = .ok ({ Doc.mk [] false with store := [] }, 0)
    ∧ mutably (Doc.mk [] true) (some (TransactionResource.mk none true))
        (fun s => (.ok (s, (0 : Int)) : Except RustlerError (Store × Int)))
      = .error (.Atom "transaction_acq_error") :=
  ⟨(poisoned_lock_falls_back (Doc.mk [] false)
      (TransactionResource.mk none true)
      (fun s => .ok (s, (0 : Int))) (fun _ => .ok (0 : Int)) rfl).1,
   (poisoned_lock_falls_back (Doc.mk [] false)
      (TransactionResource.mk none true)
      (fun s => .ok (s, (0 : Int))) (fun _ => .ok (0 : Int)) rfl).2.1,
   (poisoned_lock_falls_back (Doc.mk [] false)
      (TransactionResource.mk none true)
      (fun s => .ok (s, (0 : Int))) (fun _ => .ok (0 : Int)) rfl).2.2.1
     rfl [] 0 rfl,
   (poisoned_lock_falls_back (Doc.mk [] true)
      (TransactionResource.mk none true)
      (fun s => .ok (s, (0 : Int))) (fun _ => .ok (0 : Int)) rfl).2.2.2 rfl⟩

/-- `capped_index_and_length` only returns in-bounds, nonempty ranges. -/
theorem capped_index_and_length_le (L : Nat) (idx : Int) (len : Nat)
    (i l : Nat) (h : capped_index_and_length L idx len = some (i, l)) :
    i + l ≤ L ∧ 0 < l := by
  unfold capped_index_and_length at h
  set index := normalize_index L idx with hidx
  by_cases hz : min len (L - index) = 0
  · simp [hz] at h
  · simp [hz] at h
    have hmin1 : min len (L - index) ≤ L - index := Nat.min_le_right _ _
    omega

/-- Claim C10: signed-index handling of the array operations — a negative
index counts from the end of the array; the insertion index is clamped
into `[0, len]`, so `array_insert` never hits an out-of-range abort; and
`array_delete_range` caps the pair to the array's bounds, returning ok
(with the array unchanged) when the effective range is empty or entirely
out of bounds. -/
theorem array_signed_index_handling (arr : List Int) (i : Int) (v : Int)
    (len : Nat) :
    (i < 0 → -(arr.length : Int) ≤ i →
      (normalize_index arr.length i : Int) = (arr.length : Int) + i)
    ∧ normalize_index_for_insert arr.length i ≤ arr.length
    ∧ (array_insert arr i v).isSome = true
    ∧ (array_delete_range arr i len).isSome = true
    ∧ (capped_index_and_length arr.length i len = none →
        array_delete_range arr i len = some arr) := by
  have hins : normalize_index_for_insert arr.length i ≤ arr.length := by
    unfold normalize_index_for_insert
    split
    · exact Int.toNat_le.mpr (min_le_right _ _)
    · exact Int.toNat_le.mpr (min_le_right _ _)
  refine ⟨?_, hins, ?_, ?_, ?_⟩
  · intro hneg hge
    unfold normalize_index
    rw [if_pos hneg, if_neg (by omega)]
    omega
  · simp [array_insert, yrsArrayInsert, hins]
  · cases hc : capped_index_and_length arr.length i len with
    | none => simp [array_delete_range, hc]
    | some p =>
        obtain ⟨i0, l0⟩ := p
        have hb := capped_index_and_length_le arr.length i len i0 l0 hc
        simp [array_delete_range, hc, yrsArrayRemoveRange, hb.1]
  · intro hc
    simp [array_delete_range, hc]

/-- Witness for C10 at concrete inputs, with every hypothesis discharged
(a negative in-range index for the counting-from-the-end and insert cases,
an empty array for the out-of-bounds delete case). -/
theorem array_signed_index_handling_witness :
    (normalize_index (List.length ([1, 2, 3] : List Int)) (-1) : Int)
      = ((List.length ([1, 2, 3] : List Int) : Nat) : Int) + -1
    ∧ normalize_index_for_insert (List.length ([1, 2, 3] : List Int)) (-1)
        ≤ List.length ([1, 2, 3] : List Int)
    ∧ (array_insert [1, 2, 3] (-1) 9).isSome = true
    ∧ (array_delete_range [1, 2, 3] (-1) 2).isSome = true
    ∧ array_delete_range ([] : List Int) 0 5 = some [] :=
  ⟨(array_signed_index_handling [1, 2, 3] (-1) 9 2).1 (by decide) (by decide),
   (array_signed_index_handling [1, 2, 3] (-1) 9 2).2.1,
   (array_signed_index_handling [1, 2, 3] (-1) 9 2).2.2.1,
   (array_signed_index_handling [1, 2, 3] (-1) 9 2).2.2.2.1,
   (array_signed_index_handling [] 0 9 5).2.2.2.2 (by rfl)⟩

end Yex
